import Mathlib

/-!
Verification of the duty-reminder bot (`dutyscdp_bot`): a shallow embedding of
the reminder-session state machine (`bot.py`), its event-acknowledgement
protocol, the poll-loop deduplication, the scheduler utilities (`utils.py`)
and the on-call-to-contact mapping, together with theorems settling the
specification's claims about them.

Stateful Python methods are embedded as pure functions from explicit state to
state plus a trace of outgoing chat-gateway calls.  Python `set`s of strings
are embedded as duplicate-free lists with membership-guarded insertion.
Python `None`-able string fields are embedded as `Option String`, with
Python truthiness (`None` and `""` are falsy) made explicit.
-/

namespace Duty

/-! ## Basic utilities: Python truthiness, set operations, substring and
word-boundary search -/

/-- Python truthiness of an optional string: `None` and `""` are falsy. -/
def truthyStr : Option String → Bool
  | none => false
  | some s => s ≠ ""

/-- `str(x)` of an optional string defaulting to `""`, as used for
`user.get("username", "")`. -/
def strOrEmpty : Option String → String
  | none => ""
  | some s => s

/-- ASCII lowercasing (Python `str.lower()`, modelled for ASCII text),
implemented on the character list so that it evaluates by kernel
reduction. -/
def lowerStr (s : String) : String :=
  String.mk (s.toList.map Char.toLower)

/-- Python `str.strip()`: drop leading and trailing whitespace. -/
def trimStr (s : String) : String :=
  String.mk (((s.toList.dropWhile Char.isWhitespace).reverse.dropWhile
    Char.isWhitespace).reverse)

/-- Insertion into a Python `set` modelled as a duplicate-free list:
`s.add(x)` is a no-op when the element is already present. -/
def insertSet (x : String) (l : List String) : List String :=
  if x ∈ l then l else l ++ [x]

/-- `s.update(xs)` on a Python `set`: insert every element of `xs`. -/
def unionSet (l : List String) (xs : List String) : List String :=
  xs.foldl (fun acc x => insertSet x acc) l

/-- Does `pat` occur at the very start of `hay`? -/
def subAt : List Char → List Char → Bool
  | [], _ => true
  | _ :: _, [] => false
  | a :: as, b :: bs => a == b && subAt as bs

/-- Does `pat` occur anywhere in `hay`?  (Python `pat in hay`.) -/
def listHasSub (pat : List Char) : List Char → Bool
  | [] => subAt pat []
  | b :: bs => subAt pat (b :: bs) || listHasSub pat bs

/-- Substring containment on strings (Python `needle in haystack`). -/
def strHasSub (needle hay : String) : Bool :=
  listHasSub needle.toList hay.toList

/-- Regex word character (the `\w` class, modelled for ASCII text):
letters, digits and underscore. -/
def isWordChar (c : Char) : Bool :=
  c.isAlphanum || c == '_'

/-- A `\b` boundary holds before the match when there is no preceding
character or the preceding character is not a word character. -/
def boundaryBefore : Option Char → Bool
  | none => true
  | some c => !isWordChar c

/-- A `\b` boundary holds after the match when the remaining text is empty
or starts with a non-word character. -/
def boundaryAfter : List Char → Bool
  | [] => true
  | c :: _ => !isWordChar c

/-- Search for `pat` as a whole word (`re.search(r"\b pat \b", hay)` without
the spaces), scanning `hay` while remembering the previous character. -/
def wordSearch (pat : List Char) : Option Char → List Char → Bool
  | prev, [] => boundaryBefore prev && subAt pat []
  | prev, c :: rest =>
      (boundaryBefore prev && subAt pat (c :: rest)
        && boundaryAfter (List.drop pat.length (c :: rest)))
      || wordSearch pat (some c) rest

/-- Whole-word containment of `pat` in `text`
(`bool(re.search(r"\b pat \b", text))` without the spaces). -/
def hasWord (pat : String) (text : String) : Bool :=
  wordSearch pat.toList none text.toList

/-! ## Data model (`config.py` and the event payloads of `bot.py`) -/

/-- A duty contact (`config.Contact`).  The optional `ldap_oncall`
identifier appears in `bot.py` and the tests; it defaults to `None`. -/
structure Contact where
  key : String
  ldap : String
  full_name : String
  ldap_oncall : Option String := none
deriving Repr, DecidableEq

/-- The `user` sub-dictionary of a chat event as read by `bot.py`
(`user.get("username")`, `user.get("ldap")`). -/
structure EventUser where
  username : Option String := none
  ldap : Option String := none
deriving Repr, DecidableEq

/-- One entry of a `mentions` or `props["mention_keys"]` list: either a raw
string or a dictionary carrying `name`/`username`/`key`/`text` fields
(`DutyBot._is_bot_listed_in_mentions`). -/
inductive Mention where
  | str (s : String)
  | obj (name username key text : Option String)
deriving Repr, DecidableEq

/-- A chat event dictionary, restricted to the fields `DutyBot.handle_event`
reads.  `mention_keys` stands for `event.get("props", {}).get("mention_keys")`;
a missing or non-list value is `none` (the source returns `False` for
non-list values anyway). -/
structure ChatEvent where
  type : String
  id : Option String := none
  root_id : Option String := none
  text : String := ""
  user : Option EventUser := none
  mentions : Option (List Mention) := none
  mention_keys : Option (List Mention) := none
deriving Repr, DecidableEq

/-- One outgoing `LoopClient.send_message` call: channel, message text and
optional thread root. -/
structure SentMsg where
  channel : String
  text : String
  root_id : Option String := none
deriving Repr, DecidableEq

/-- `config.LoopSettings` (fields as used by `bot.py` and the tests). -/
structure LoopSettings where
  token : String
  channel_id : String
  admin_group_id : String
  server_url : String
  team : String
deriving Repr, DecidableEq

/-- `config.NotificationSettings` (fields as used by `bot.py` and the tests;
times are embedded as hour/minute pairs). -/
structure NotificationSettings where
  daily_hour : Nat
  daily_minute : Nat
  weekly_schedule_weekday : Nat
  weekly_schedule_hour : Nat
  weekly_schedule_minute : Nat
  timezone : String
  reminder_interval_minutes : Nat
  weekends_alerts : Bool
deriving Repr, DecidableEq

/-- `config.BotConfig`.  The `contacts` dictionary is embedded as its list
of values in insertion order (keys are unique in a Python dict); the static
weekday schedule as an association list from weekday number to contact. -/
structure BotConfig where
  loop : LoopSettings
  notification : NotificationSettings
  contacts : List Contact
  schedule : List (Nat × Contact)
deriving Repr, DecidableEq

/-- `BotConfig.contact_for`: the static weekday-to-contact lookup. -/
def contactFor (cfg : BotConfig) (weekday : Nat) : Option Contact :=
  (cfg.schedule.find? (fun p => p.1 == weekday)).map (fun p => p.2)

/-- `bot.ReminderSession`: the central mutable session state.  The Python
sets `acknowledged_ldaps` and `processed_post_ids` are duplicate-free
lists; `started_at` is an abstract timestamp. -/
structure ReminderSession where
  contacts : List Contact
  thread_id : String
  message_id : String
  started_at : Nat := 0
  acknowledged : Bool := false
  acknowledged_ldaps : List String := []
  processed_post_ids : List String := []
deriving Repr, DecidableEq

/-- `DutyBot._BOT_USERNAME`. -/
def BOT_USERNAME : String := "scdp-platform-bot"

/-- `DutyBot._ACK_MESSAGE`. -/
def ACK_MESSAGE : String := "Команда принята. Хорошего рабочего дня!"

/-! ## The acknowledgement protocol (`DutyBot.handle_event` and helpers) -/

/-- `DutyBot._is_bot_author`: the author is the bot when its lowercased
`username` or `ldap` equals the bot's reserved identity (set membership in
the source, hence equality, not substring). -/
def isBotAuthor (u : EventUser) : Bool :=
  lowerStr (strOrEmpty u.username) == BOT_USERNAME
    || lowerStr (strOrEmpty u.ldap) == BOT_USERNAME

/-- The display name extracted from one mention entry: the string itself, or
the first truthy of the `name`/`username`/`key`/`text` fields, else `""`
(the `or`-chain of `DutyBot._is_bot_listed_in_mentions`). -/
def firstNonEmpty : List (Option String) → String
  | [] => ""
  | none :: rest => firstNonEmpty rest
  | some s :: rest => if s == "" then firstNonEmpty rest else s

/-- The name carried by a mention entry. -/
def mentionName : Mention → String
  | .str s => s
  | .obj name username k t => firstNonEmpty [name, username, k, t]

/-- `DutyBot._is_bot_listed_in_mentions`: some entry's name contains the bot
username (lowercased, substring containment as in the source). -/
def isBotListed (l : List Mention) : Bool :=
  l.any (fun m => strHasSub BOT_USERNAME (lowerStr (mentionName m)))

/-- `DutyBot._is_bot_mentioned`: the bot username occurs in the lowercased
text, or in a truthy `mentions` list, or in a truthy `props["mention_keys"]`
list. -/
def isBotMentioned (e : ChatEvent) (normalized : String) : Bool :=
  strHasSub BOT_USERNAME normalized
    || (match e.mentions with
        | some l => !l.isEmpty && isBotListed l
        | none => false)
    || (match e.mention_keys with
        | some l => !l.isEmpty && isBotListed l
        | none => false)

/-- The full-acknowledgement test of `DutyBot.handle_event`:
`all(contact.ldap in acknowledged_ldaps for contact in contacts)`. -/
def allAcked (contacts : List Contact) (ldaps : List String) : Bool :=
  contacts.all (fun c => c.ldap ∈ ldaps)

/-- The thread-scope early return of `DutyBot.handle_event` (lines 324-331):
the event is dropped when its `root_id` is truthy, differs from the session's
thread id, and does not equal the event's own truthy id. -/
def threadScopeReject (s : ReminderSession) (e : ChatEvent) : Bool :=
  truthyStr e.root_id && e.root_id != some s.thread_id
    && !(truthyStr e.id && e.root_id == e.id)

/-- The author dictionary inspected by `handle_event`: the event's `user`
when it is a dictionary, else the empty dictionary
(`event.get("user") or {}` plus the `isinstance` fallback). -/
def eventUser (e : ChatEvent) : EventUser :=
  match e.user with
  | some u => u
  | none => {}

/-- The fixed confirmation reply `handle_event` posts in-thread. -/
def ackReply (cfg : BotConfig) (s : ReminderSession) : SentMsg :=
  { channel := cfg.loop.channel_id, text := ACK_MESSAGE,
    root_id := some s.thread_id }

/-- The event's author handle is one of the session's contact handles: the
`user_ldap in known_ldaps` test of `handle_event` (a missing `ldap` field is
never a member). -/
def userIsContact (s : ReminderSession) (e : ChatEvent) : Bool :=
  match (eventUser e).ldap with
  | some l => l ∈ s.contacts.map (fun c => c.ldap)
  | none => false

/-- The acknowledged-handle set after the take branch of `handle_event`
(lines 358-359): the author's handle is inserted exactly when the author is
a session contact. -/
def takeInsert (s : ReminderSession) (e : ChatEvent) : List String :=
  match (eventUser e).ldap with
  | some l =>
      if l ∈ s.contacts.map (fun c => c.ldap) then
        insertSet l s.acknowledged_ldaps
      else s.acknowledged_ldaps
  | none => s.acknowledged_ldaps

/-- `DutyBot.handle_event`, embedded as a pure step on the session state
returning the new session and the list of messages sent.  The caller-side
`if not self._session` guard is represented by the session argument existing;
the `acknowledged` guard, the non-message guard, the thread-scope check, the
bot-author guard, and the stop/take branches follow the source line by line. -/
def handle_event (cfg : BotConfig) (s : ReminderSession) (e : ChatEvent) :
    ReminderSession × List SentMsg :=
  if s.acknowledged then (s, [])
  else if e.type != "message" then (s, [])
  else if threadScopeReject s e then (s, [])
  else
    let normalized := lowerStr e.text
    let hasTakeCmd := hasWord "take" normalized
    let hasStopCmd := hasWord "stop" normalized
    if isBotAuthor (eventUser e) then (s, [])
    else if hasStopCmd then
      ({ s with
          acknowledged_ldaps :=
            unionSet s.acknowledged_ldaps (s.contacts.map (fun c => c.ldap)),
          acknowledged := true },
       [ackReply cfg s])
    else if hasTakeCmd && (userIsContact s e || isBotMentioned e normalized) then
      let ldaps1 := takeInsert s e
      ({ s with
          acknowledged_ldaps := ldaps1,
          acknowledged := if allAcked s.contacts ldaps1 then true
                          else s.acknowledged },
       [ackReply cfg s])
    else (s, [])

/-- The per-batch body of `DutyBot._poll_session_thread` (lines 300-310):
fold the fetched events through the dedup set and `handle_event`, stopping
early once the session is acknowledged.  The `self._session is not session`
concurrency guard is identity in this sequential embedding. -/
def pollEvents (cfg : BotConfig) (s : ReminderSession) :
    List ChatEvent → ReminderSession × List SentMsg
  | [] => (s, [])
  | e :: rest =>
    if truthyStr e.id
        && (match e.id with
            | some i => i ∈ s.processed_post_ids
            | none => false) then
      pollEvents cfg s rest
    else
      let s1 := match e.id with
        | some i =>
            if i ≠ "" then
              { s with processed_post_ids := insertSet i s.processed_post_ids }
            else s
        | none => s
      let r := handle_event cfg s1 e
      if r.1.acknowledged then r
      else
        let r2 := pollEvents cfg r.1 rest
        (r2.1, r.2 ++ r2.2)

/-- The push-webhook delivery path (`WebhookServer._handle_payload` for the
root path): the payload is handed to `handle_event` directly, without
consulting or updating the session's `processed_post_ids`. -/
def pushEvent (cfg : BotConfig) (s : ReminderSession) (e : ChatEvent) :
    ReminderSession × List SentMsg :=
  handle_event cfg s e

/-! ## Reminders (`DutyBot._send_reminder`, `DutyBot._contacts_pending_ack`) -/

/-- `DutyBot._contacts_pending_ack`: the session contacts, in order, whose
handle is not yet acknowledged. -/
def contacts_pending_ack (s : ReminderSession) : List Contact :=
  s.contacts.filter (fun c => !(decide (c.ldap ∈ s.acknowledged_ldaps)))

/-- The `" ".join(f"@...")` mention block used in reminder messages. -/
def mentionBlock (l : List Contact) : String :=
  String.intercalate " " (l.map (fun c => "@" ++ c.ldap))

/-- `DutyBot._send_reminder`: with an active session, mention the pending
contacts in-thread, sending nothing when none are pending. -/
def send_reminder (cfg : BotConfig) (s : ReminderSession) : List SentMsg :=
  let toRemind := contacts_pending_ack s
  if toRemind.isEmpty then []
  else
    let noun := if toRemind.length > 1 then "ваша дежурная смена"
                else "твоя дежурная смена"
    [{ channel := cfg.loop.channel_id,
       text := mentionBlock toRemind ++ " напомню, что сегодня " ++ noun
         ++ ". Напиши '@scdp-platform-bot take' в данном треде",
       root_id := some s.thread_id }]

/-! ## On-call identifier mapping (`DutyBot._map_oncall_ldaps_to_contacts`) -/

/-- The identifier normalization applied to each incoming on-call
identifier: `str(x).strip().lower()`. -/
def normalizeLdap (s : String) : String := lowerStr (trimStr s)

/-- The token set built for one contact (lines 426-430): the lowercased
handle, the part of the handle before a `"@"` when one is present, and the
lowercased optional on-call identifier when truthy. -/
def contactTokens (c : Contact) : List String :=
  [lowerStr c.ldap]
    ++ (if '@' ∈ c.ldap.toList then
          [lowerStr (String.mk (c.ldap.toList.takeWhile (fun ch => ch ≠ '@')))]
        else [])
    ++ (match c.ldap_oncall with
        | some o => if o ≠ "" then [lowerStr o] else []
        | none => [])

/-- The inner dedup loop of `_map_oncall_ldaps_to_contacts` (lines 433-437):
append each matched contact not yet seen, remembering its key. -/
def addMatched (acc : List Contact) (seen : List String) :
    List Contact → List Contact × List String
  | [] => (acc, seen)
  | c :: rest =>
      if c.key ∈ seen then addMatched acc seen rest
      else addMatched (acc ++ [c]) (seen ++ [c.key]) rest

/-- The outer loop of `_map_oncall_ldaps_to_contacts` over the incoming
identifiers, threading the accumulated contacts and seen keys. -/
def mapOncallAux (cfg : BotConfig) (acc : List Contact) (seen : List String) :
    List String → List Contact
  | [] => acc
  | l :: rest =>
      let n := normalizeLdap l
      if n = "" then mapOncallAux cfg acc seen rest
      else
        let matched := cfg.contacts.filter (fun c => n ∈ contactTokens c)
        let p := addMatched acc seen matched
        mapOncallAux cfg p.1 p.2 rest

/-- `DutyBot._map_oncall_ldaps_to_contacts`. -/
def map_oncall_ldaps_to_contacts (cfg : BotConfig) (ldaps : List String) :
    List Contact :=
  mapOncallAux cfg [] [] ldaps

/-! ## Duty scheduler (`DutyBot._notify_today`, `DutyBot._sync_duty_group`,
manual triggers) -/

/-- One outgoing gateway effect of the scheduler paths, recorded in call
order. -/
inductive Action where
  | sendMessage (channel text : String) (root_id : Option String)
  | getUserByUsername (username : String)
  | getGroupMemberIds (group : String)
  | addGroupMembers (group : String) (users : List String)
  | removeGroupMembers (group : String) (users : List String)
  | runSession (contacts : List Contact)
deriving Repr, DecidableEq

/-- The environment a scheduler run observes: the resolved Loop user id per
username (`none` for a raised error, the raw id string otherwise), the
current group membership (`none` for a raised error), and the on-call
gateway's current identifiers (`none` when no client/config is present or
the fetch raised). -/
structure GatewayEnv where
  resolveUser : String → Option String
  groupMembers : Option (List String)
  oncallLdaps : Option (List String)

/-- First-occurrence deduplication of a string list (a Python `set` built by
insertion, iterated in insertion order). -/
def dedupStr : List String → List String
  | [] => []
  | x :: rest => if x ∈ rest then dedupStr rest else x :: dedupStr rest

/-- `sorted(...)` on a Python string set. -/
def sortStr (l : List String) : List String :=
  l.mergeSort (fun a b => a ≤ b)

/-- `DutyBot._sync_duty_group`: skip when no group is configured; resolve
each desired username (contact handles plus the bot) to a user id, skipping
failures and blank ids; abort when nothing resolved or the membership fetch
fails; then remove the stale members and add the missing ones.  The Python
set of usernames is embedded in first-occurrence order. -/
def sync_duty_group (cfg : BotConfig) (env : GatewayEnv)
    (contacts : List Contact) : List Action :=
  let groupId := trimStr cfg.loop.admin_group_id
  if groupId = "" then []
  else
    let usernames := dedupStr (contacts.map (fun c => c.ldap) ++ [BOT_USERNAME])
    let resolveActions := usernames.map Action.getUserByUsername
    let desired := dedupStr (usernames.filterMap (fun u =>
      match env.resolveUser u with
      | some rawId =>
          let userId := trimStr rawId
          if userId ≠ "" then some userId else none
      | none => none))
    if desired.isEmpty then resolveActions
    else
      match env.groupMembers with
      | none => resolveActions ++ [Action.getGroupMemberIds groupId]
      | some current =>
        let usersToAdd := sortStr (desired.filter (fun u => !(decide (u ∈ current))))
        let usersToRemove :=
          sortStr ((dedupStr current).filter (fun u => !(decide (u ∈ desired))))
        resolveActions ++ [Action.getGroupMemberIds groupId]
          ++ (if !usersToRemove.isEmpty then
                [Action.removeGroupMembers groupId usersToRemove] else [])
          ++ (if !usersToAdd.isEmpty then
                [Action.addGroupMembers groupId usersToAdd] else [])

/-- `DutyBot._load_oncall_contacts`: an absent client/config, a fetch error
or an empty identifier list yields no contacts; otherwise the identifiers
are mapped through the contact directory. -/
def load_oncall_contacts (cfg : BotConfig) (env : GatewayEnv) : List Contact :=
  match env.oncallLdaps with
  | none => []
  | some ldaps =>
      if ldaps.isEmpty then []
      else map_oncall_ldaps_to_contacts cfg ldaps

/-- `DutyBot._notify_today`: skip weekends entirely unless weekend alerts
are enabled; otherwise notify the resolved on-call contacts (group sync plus
session) or fall back to the static weekday contact. -/
def notify_today (cfg : BotConfig) (env : GatewayEnv) (weekday : Nat) :
    List Action :=
  if !cfg.notification.weekends_alerts && weekday ≥ 5 then []
  else
    let oncallContacts := load_oncall_contacts cfg env
    if !oncallContacts.isEmpty then
      sync_duty_group cfg env oncallContacts ++ [Action.runSession oncallContacts]
    else
      match contactFor cfg weekday with
      | none => []
      | some c =>
          sync_duty_group cfg env [c] ++ [Action.runSession [c]]

/-- The scheduler's session-guard state: whether a session task exists and
is not yet done (`self._session_task and not self._session_task.done()`). -/
structure BotState where
  session_active : Bool
deriving Repr, DecidableEq

/-- `DutyBot.trigger_contact`: refuse (returning `false`, with no gateway
calls) for an unknown key or while a session is active; otherwise schedule a
session for the contact. -/
def trigger_contact (cfg : BotConfig) (st : BotState) (key : String) :
    Bool × List Action :=
  match cfg.contacts.find? (fun c => c.key == key) with
  | none => (false, [])
  | some c =>
      if st.session_active then (false, [])
      else (true, [Action.runSession [c]])

/-- Modelled from the spec: `trigger_oncall_duty` is named by the spec's
§4.2/§6 and exercised by the webhook tests but absent from the provided
`bot.py`; per the spec it refuses with a not-scheduled boolean while a
session is already active and otherwise re-invokes the notify-today on-call
path immediately. -/
def trigger_oncall_duty (cfg : BotConfig) (env : GatewayEnv) (st : BotState)
    (weekday : Nat) : Bool × List Action :=
  if st.session_active then (false, [])
  else (true, notify_today cfg env weekday)

/-! ## Time/schedule utility (`utils.seconds_until` and the scheduler loops) -/

/-- `utils.seconds_until`, embedded on a clock reading of seconds since
local midnight: the target is today's configured time-of-day, pushed to
tomorrow when it is not strictly in the future. -/
def seconds_until (nowSec : Nat) (hour minute : Nat) : Int :=
  let target : Int := (hour : Int) * 3600 + (minute : Int) * 60
  if target ≤ (nowSec : Int) then target + 86400 - (nowSec : Int)
  else target - (nowSec : Int)

/-- Modelled from the spec: `seconds_until_weekly` is imported by `bot.py`
from `utils` but absent from the provided `utils.py`; per the spec it
computes the seconds until the next occurrence of the configured weekday and
time-of-day, targeting next week when this week's occurrence has passed.
The clock reading is the current weekday plus seconds since local
midnight. -/
def seconds_until_weekly (nowWeekday nowSec : Nat)
    (targetWeekday hour minute : Nat) : Int :=
  let dayDelta : Int := ((targetWeekday : Int) - (nowWeekday : Int)) % 7
  let base : Int :=
    dayDelta * 86400 + ((hour : Int) * 3600 + (minute : Int) * 60)
      - (nowSec : Int)
  if base ≤ 0 then base + 7 * 86400 else base

/-- The wait computed by one turn of `DutyBot._daily_notification_loop`
(line 76): exactly the utility's seconds-until value for the configured
daily time. -/
def daily_loop_wait (cfg : BotConfig) (nowSec : Nat) : Int :=
  seconds_until nowSec cfg.notification.daily_hour cfg.notification.daily_minute

/-- The wait computed by one turn of `DutyBot._weekly_schedule_loop`
(lines 87-91): exactly the utility's weekly seconds-until value for the
configured weekday and time. -/
def weekly_loop_wait (cfg : BotConfig) (nowWeekday nowSec : Nat) : Int :=
  seconds_until_weekly nowWeekday nowSec
    cfg.notification.weekly_schedule_weekday
    cfg.notification.weekly_schedule_hour
    cfg.notification.weekly_schedule_minute

/-! ## Derived predicates used in the claim statements -/

/-- The event reaches the stop/take matching of `handle_event`: it is a
message, it survives the thread-scope check, and it is not authored by the
bot. -/
def eventConsidered (s : ReminderSession) (e : ChatEvent) : Bool :=
  e.type == "message" && !threadScopeReject s e && !isBotAuthor (eventUser e)

/-- A stop command was received by the matching logic from a non-bot author:
the event is considered and its lowercased text contains the whole word
`stop`. -/
def stopReceived (s : ReminderSession) (e : ChatEvent) : Bool :=
  eventConsidered s e && hasWord "stop" (lowerStr e.text)

/-! ## Concrete fixtures (mirroring the repository's test configuration) -/

/-- Test contact Alice. -/
def aliceC : Contact := { key := "alice", ldap := "alice.ldap", full_name := "Alice" }

/-- Test contact Bob. -/
def bobC : Contact := { key := "bob", ldap := "bob.ldap", full_name := "Bob" }

/-- Test Loop settings. -/
def loopEx : LoopSettings :=
  { token := "t", channel_id := "main", admin_group_id := "channel",
    server_url := "https://loop", team := "team" }

/-- Test notification settings. -/
def notifEx : NotificationSettings :=
  { daily_hour := 8, daily_minute := 50, weekly_schedule_weekday := 4,
    weekly_schedule_hour := 14, weekly_schedule_minute := 0,
    timezone := "UTC", reminder_interval_minutes := 1, weekends_alerts := true }

/-- Test configuration with contacts Alice and Bob. -/
def cfgEx : BotConfig :=
  { loop := loopEx, notification := notifEx, contacts := [aliceC, bobC],
    schedule := [(0, aliceC)] }

/-- A freshly started two-contact session anchored at thread `msg-1`. -/
def sessEx : ReminderSession :=
  { contacts := [aliceC, bobC], thread_id := "msg-1", message_id := "msg-1",
    processed_post_ids := ["msg-1"] }

/-- A freshly started single-contact session anchored at thread `msg-1`. -/
def sessOne : ReminderSession :=
  { contacts := [aliceC], thread_id := "msg-1", message_id := "msg-1",
    processed_post_ids := ["msg-1"] }

/-- A gateway environment resolving Alice and the bot, with one stale group
member and no on-call data. -/
def envEx : GatewayEnv :=
  { resolveUser := fun u =>
      if u == "alice.ldap" then some "u-alice"
      else if u == BOT_USERNAME then some "u-bot"
      else none,
    groupMembers := some ["u-old", "u-bot"],
    oncallLdaps := none }

/-- An in-thread take command from Alice mentioning the bot, with an id. -/
def evTake : ChatEvent :=
  { type := "message", id := some "evt-7", root_id := some "msg-1",
    user := some { ldap := some "alice.ldap" },
    text := "@scdp-platform-bot take" }

/-- An in-thread stop command from an unrelated user. -/
def evStop : ChatEvent :=
  { type := "message", id := some "evt-8", root_id := some "msg-1",
    user := some { ldap := some "random.user" }, text := "stop" }

/-! ## Helper lemmas about the set embedding -/

theorem mem_insertSet {x y : String} {l : List String} :
    y ∈ insertSet x l ↔ y ∈ l ∨ y = x := by
  unfold insertSet
  split
  · rename_i hx
    constructor
    · exact Or.inl
    · rintro (hy | rfl)
      · exact hy
      · exact hx
  · simp [List.mem_append]

theorem nodup_insertSet {x : String} {l : List String} (h : l.Nodup) :
    (insertSet x l).Nodup := by
  unfold insertSet
  split
  · exact h
  · rename_i hx
    simp [List.nodup_append, h, List.disjoint_singleton, hx]

theorem unionSet_cons (l : List String) (x : String) (xs : List String) :
    unionSet l (x :: xs) = unionSet (insertSet x l) xs := rfl

theorem mem_unionSet {y : String} {l xs : List String} :
    y ∈ unionSet l xs ↔ y ∈ l ∨ y ∈ xs := by
  induction xs generalizing l with
  | nil => simp [unionSet]
  | cons x xs ih =>
      rw [unionSet_cons, ih]
      rw [mem_insertSet]
      constructor
      · rintro ((hy | rfl) | hy)
        · exact Or.inl hy
        · exact Or.inr (List.mem_cons_self _ _)
        · exact Or.inr (List.mem_cons_of_mem _ hy)
      · rintro (hy | hy)
        · exact Or.inl (Or.inl hy)
        · rcases List.mem_cons.mp hy with rfl | hy
          · exact Or.inl (Or.inr rfl)
          · exact Or.inr hy

theorem nodup_unionSet {l xs : List String} (h : l.Nodup) :
    (unionSet l xs).Nodup := by
  induction xs generalizing l with
  | nil => exact h
  | cons x xs ih => exact ih (nodup_insertSet h)

/-! ## Branch characterizations of `handle_event` -/

theorem handle_event_acked (cfg : BotConfig) (s : ReminderSession)
    (e : ChatEvent) (hack : s.acknowledged = true) :
    handle_event cfg s e = (s, []) := by
  unfold handle_event
  simp [hack]

theorem handle_event_not_considered (cfg : BotConfig) (s : ReminderSession)
    (e : ChatEvent) (hcons : eventConsidered s e = false) :
    handle_event cfg s e = (s, []) := by
  unfold handle_event
  by_cases h1 : s.acknowledged
  · simp [h1]
  · by_cases h2 : e.type == "message"
    · by_cases h3 : threadScopeReject s e
      · simp [h1, h2, h3, bne]
      · have h4 : isBotAuthor (eventUser e) = true := by
          unfold eventConsidered at hcons
          simp [h2, h3] at hcons
          exact hcons
        simp [h1, h2, h3, h4, bne]
    · simp [h1, h2, bne]

theorem handle_event_stop (cfg : BotConfig) (s : ReminderSession)
    (e : ChatEvent) (hack : s.acknowledged = false)
    (hcons : eventConsidered s e = true)
    (hstop : hasWord "stop" (lowerStr e.text) = true) :
    handle_event cfg s e =
      ({ s with
          acknowledged_ldaps :=
            unionSet s.acknowledged_ldaps (s.contacts.map (fun c => c.ldap)),
          acknowledged := true },
       [ackReply cfg s]) := by
  unfold eventConsidered at hcons
  simp only [Bool.and_eq_true, Bool.not_eq_true'] at hcons
  obtain ⟨⟨htype, hscope⟩, hauthor⟩ := hcons
  unfold handle_event
  simp [hack, htype, hscope, hauthor, hstop, bne]

theorem handle_event_take (cfg : BotConfig) (s : ReminderSession)
    (e : ChatEvent) (hack : s.acknowledged = false)
    (hcons : eventConsidered s e = true)
    (hstop : hasWord "stop" (lowerStr e.text) = false)
    (hgate : (hasWord "take" (lowerStr e.text)
      && (userIsContact s e || isBotMentioned e (lowerStr e.text))) = true) :
    handle_event cfg s e =
      ({ s with
          acknowledged_ldaps := takeInsert s e,
          acknowledged := if allAcked s.contacts (takeInsert s e) then true
                          else s.acknowledged },
       [ackReply cfg s]) := by
  unfold eventConsidered at hcons
  simp only [Bool.and_eq_true, Bool.not_eq_true'] at hcons
  obtain ⟨⟨htype, hscope⟩, hauthor⟩ := hcons
  unfold handle_event
  simp [hack, htype, hscope, hauthor, hstop, hgate, bne]

theorem handle_event_no_match (cfg : BotConfig) (s : ReminderSession)
    (e : ChatEvent) (hack : s.acknowledged = false)
    (hstop : hasWord "stop" (lowerStr e.text) = false)
    (hgate : (hasWord "take" (lowerStr e.text)
      && (userIsContact s e || isBotMentioned e (lowerStr e.text))) = false) :
    handle_event cfg s e = (s, []) := by
  by_cases hcons : eventConsidered s e
  · unfold eventConsidered at hcons
    simp only [Bool.and_eq_true, Bool.not_eq_true'] at hcons
    obtain ⟨⟨htype, hscope⟩, hauthor⟩ := hcons
    unfold handle_event
    simp [hack, htype, hscope, hauthor, hstop, hgate, bne]
  · exact handle_event_not_considered cfg s e (by simpa using hcons)

/-- The fields of the session other than the acknowledgement state are never
written by `handle_event`. -/
theorem handle_event_frame (cfg : BotConfig) (s : ReminderSession)
    (e : ChatEvent) :
    (handle_event cfg s e).1.contacts = s.contacts
    ∧ (handle_event cfg s e).1.thread_id = s.thread_id
    ∧ (handle_event cfg s e).1.processed_post_ids = s.processed_post_ids := by
  by_cases h1 : s.acknowledged = true
  · rw [handle_event_acked cfg s e h1]
    exact ⟨rfl, rfl, rfl⟩
  · have hack : s.acknowledged = false := by simpa using h1
    by_cases hcons : eventConsidered s e = true
    · by_cases hstop : hasWord "stop" (lowerStr e.text) = true
      · rw [handle_event_stop cfg s e hack hcons hstop]
        exact ⟨rfl, rfl, rfl⟩
      · have hstopF : hasWord "stop" (lowerStr e.text) = false := by simpa using hstop
        by_cases hgate : (hasWord "take" (lowerStr e.text)
            && (userIsContact s e || isBotMentioned e (lowerStr e.text))) = true
        · rw [handle_event_take cfg s e hack hcons hstopF hgate]
          exact ⟨rfl, rfl, rfl⟩
        · rw [handle_event_no_match cfg s e hack hstopF (by simpa using hgate)]
          exact ⟨rfl, rfl, rfl⟩
    · rw [handle_event_not_considered cfg s e (by simpa using hcons)]
      exact ⟨rfl, rfl, rfl⟩

/-! ## Claim C6: reminders mention exactly the pending contacts -/

/-- C6: on a reminder tick during an active session, the reminder message is
sent in-thread and opens with the mention block of exactly the contacts
whose handles are not yet acknowledged, in the session's contact order; when
no contact is pending, nothing is sent. -/
theorem c6_reminder_mentions_pending (cfg : BotConfig) (s : ReminderSession) :
    (contacts_pending_ack s = [] → send_reminder cfg s = [])
    ∧ (contacts_pending_ack s ≠ [] →
        ∃ rest, send_reminder cfg s =
          [{ channel := cfg.loop.channel_id,
             text := mentionBlock (contacts_pending_ack s) ++ rest,
             root_id := some s.thread_id }])
    ∧ (∀ c, c ∈ contacts_pending_ack s ↔
        c ∈ s.contacts ∧ c.ldap ∉ s.acknowledged_ldaps)
    ∧ (contacts_pending_ack s).Sublist s.contacts := by
  refine ⟨?_, ?_, ?_, ?_⟩
  · intro h
    simp [send_reminder, h]
  · intro h
    refine ⟨" напомню, что сегодня "
      ++ (if (contacts_pending_ack s).length > 1 then "ваша дежурная смена"
          else "твоя дежурная смена")
      ++ ". Напиши '@scdp-platform-bot take' в данном треде", ?_⟩
    simp only [send_reminder, List.isEmpty_eq_true, h, if_false]
    simp [String.append_assoc]
  · intro c
    simp [contacts_pending_ack, List.mem_filter]
  · exact List.filter_sublist _

/-- A half-acknowledged two-contact session: Alice has confirmed, Bob has
not. -/
def sessHalf : ReminderSession :=
  { sessEx with acknowledged_ldaps := ["alice.ldap"] }

/-- Witness for C6: in the half-acknowledged session the reminder goes to
the thread and starts with the mention block of the pending contacts. -/
theorem c6_reminder_mentions_pending_witness :
    contacts_pending_ack sessHalf ≠ []
    ∧ ∃ rest, send_reminder cfgEx sessHalf =
        [{ channel := cfgEx.loop.channel_id,
           text := mentionBlock (contacts_pending_ack sessHalf) ++ rest,
           root_id := some sessHalf.thread_id }] :=
  ⟨by decide, (c6_reminder_mentions_pending cfgEx sessHalf).2.1 (by decide)⟩

/-! ## Claim C7: weekends without weekend alerts are a full no-op -/

/-- C7: on a Saturday or Sunday with weekend alerts disabled, the
notify-today procedure performs no gateway call at all — no message send, no
user resolution, no group membership read or write, and no session. -/
theorem c7_notify_today_weekend_noop (cfg : BotConfig) (env : GatewayEnv)
    (weekday : Nat) (halerts : cfg.notification.weekends_alerts = false)
    (hw : 5 ≤ weekday) :
    notify_today cfg env weekday = [] := by
  unfold notify_today
  simp [halerts, hw]

/-- The test configuration with weekend alerts disabled. -/
def cfgNoWeekend : BotConfig :=
  { cfgEx with notification := { notifEx with weekends_alerts := false } }

/-- Witness for C7: Sunday (weekday 6) with weekend alerts disabled
produces an empty effect trace. -/
theorem c7_notify_today_weekend_noop_witness :
    cfgNoWeekend.notification.weekends_alerts = false
    ∧ notify_today cfgNoWeekend envEx 6 = [] :=
  ⟨rfl, c7_notify_today_weekend_noop cfgNoWeekend envEx 6 rfl (by decide)⟩

/-! ## Claim C8: manual triggers refuse while a session is active -/

/-- C8: while a reminder session is active (the session task exists and is
not done), both `trigger_contact` and the spec-modelled
`trigger_oncall_duty` refuse with the boolean result `false` — the embedding
is a total function, so no exception is possible — and perform no gateway
call and no state change. -/
theorem c8_triggers_refuse_when_session_active (cfg : BotConfig)
    (env : GatewayEnv) (st : BotState) (key : String) (weekday : Nat)
    (h : st.session_active = true) :
    trigger_contact cfg st key = (false, [])
    ∧ trigger_oncall_duty cfg env st weekday = (false, []) := by
  constructor
  · unfold trigger_contact
    cases cfg.contacts.find? (fun c => c.key == key) <;> simp [h]
  · unfold trigger_oncall_duty
    simp [h]

/-- The guard state while a session task is running. -/
def activeState : BotState := { session_active := true }

/-- Witness for C8: with an active session, triggering Alice and triggering
the on-call path both return `false` with no effects. -/
theorem c8_triggers_refuse_when_session_active_witness :
    activeState.session_active = true
    ∧ trigger_contact cfgEx activeState "alice" = (false, [])
    ∧ trigger_oncall_duty cfgEx envEx activeState 0 = (false, []) :=
  ⟨rfl,
   (c8_triggers_refuse_when_session_active cfgEx envEx activeState "alice" 0 rfl).1,
   (c8_triggers_refuse_when_session_active cfgEx envEx activeState "alice" 0 rfl).2⟩

/-! ## Claim C9: the schedule utility computes the next occurrence -/

/-- C9: `seconds_until` returns a positive duration of at most one day that
lands exactly on the configured time-of-day (so it targets tomorrow whenever
today's time has passed); the spec-modelled `seconds_until_weekly` returns a
positive duration of at most one week landing exactly on the configured
weekday and time; and the daily and weekly scheduler loops wait exactly
these computed durations. -/
theorem c9_schedule_wait_characterization (cfg : BotConfig)
    (nowWeekday nowSec hour minute targetWeekday : Nat)
    (hnow : nowSec < 86400) (hh : hour < 24) (hm : minute < 60)
    (hnw : nowWeekday < 7) (htw : targetWeekday < 7) :
    (0 < seconds_until nowSec hour minute
      ∧ seconds_until nowSec hour minute ≤ 86400
      ∧ ((nowSec : Int) + seconds_until nowSec hour minute) % 86400
          = ((hour : Int) * 3600 + (minute : Int) * 60) % 86400)
    ∧ (0 < seconds_until_weekly nowWeekday nowSec targetWeekday hour minute
      ∧ seconds_until_weekly nowWeekday nowSec targetWeekday hour minute ≤ 604800
      ∧ ((nowWeekday : Int) * 86400 + (nowSec : Int)
            + seconds_until_weekly nowWeekday nowSec targetWeekday hour minute)
              % 604800
          = ((targetWeekday : Int) * 86400 + (hour : Int) * 3600
              + (minute : Int) * 60) % 604800)
    ∧ daily_loop_wait cfg nowSec
        = seconds_until nowSec cfg.notification.daily_hour
            cfg.notification.daily_minute
    ∧ weekly_loop_wait cfg nowWeekday nowSec
        = seconds_until_weekly nowWeekday nowSec
            cfg.notification.weekly_schedule_weekday
            cfg.notification.weekly_schedule_hour
            cfg.notification.weekly_schedule_minute := by
  refine ⟨⟨?_, ?_, ?_⟩, ⟨?_, ?_, ?_⟩, rfl, rfl⟩
  all_goals simp only [seconds_until, seconds_until_weekly]
  all_goals split <;> omega

/-- Witness for C9: at 10:00:00 on a Friday, the wait until the daily 08:50
notification is positive, and likewise for the weekly Friday 14:00
report. -/
theorem c9_schedule_wait_characterization_witness :
    0 < seconds_until 36000 8 50
    ∧ 0 < seconds_until_weekly 4 36000 4 14 0 :=
  ⟨(c9_schedule_wait_characterization cfgEx 4 36000 8 50 4 (by decide)
      (by decide) (by decide) (by decide) (by decide)).1.1,
   (c9_schedule_wait_characterization cfgEx 4 36000 14 0 4 (by decide)
      (by decide) (by decide) (by decide) (by decide)).2.1.1⟩

/-! ## Claim C10: the on-call-to-contact mapping -/

/-- The matching contacts for one normalized identifier, in directory
order. -/
def matchedContacts (cfg : BotConfig) (n : String) : List Contact :=
  cfg.contacts.filter (fun c => n ∈ contactTokens c)

/-- Spec-side description of the mapping's candidate stream: every incoming
identifier contributes its matching contacts, blanks contributing
nothing. -/
def oncallCandidates (cfg : BotConfig) (ldaps : List String) : List Contact :=
  ldaps.flatMap (fun l =>
    if normalizeLdap l = "" then [] else matchedContacts cfg (normalizeLdap l))

/-- Spec-side first-match deduplication by contact key: keep each candidate
whose key was not seen before, in order of first appearance. -/
def dedupKeys (seen : List String) : List Contact → List Contact
  | [] => []
  | c :: rest =>
      if c.key ∈ seen then dedupKeys seen rest
      else c :: dedupKeys (seen ++ [c.key]) rest

theorem addMatched_eq (ms : List Contact) (acc : List Contact)
    (seen : List String) :
    addMatched acc seen ms =
      (acc ++ dedupKeys seen ms,
       seen ++ (dedupKeys seen ms).map (fun c => c.key)) := by
  induction ms generalizing acc seen with
  | nil => simp [addMatched, dedupKeys]
  | cons c rest ih =>
      by_cases h : c.key ∈ seen
      · simp [addMatched, dedupKeys, h, ih]
      · simp [addMatched, dedupKeys, h, ih]

theorem dedupKeys_append (A B : List Contact) (seen : List String) :
    dedupKeys seen (A ++ B) =
      dedupKeys seen A
        ++ dedupKeys (seen ++ (dedupKeys seen A).map (fun c => c.key)) B := by
  induction A generalizing seen with
  | nil => simp [dedupKeys]
  | cons c A ih =>
      by_cases h : c.key ∈ seen
      · simp [dedupKeys, h, ih]
      · simp [dedupKeys, h, ih]

theorem mapOncallAux_eq (cfg : BotConfig) (ldaps : List String)
    (acc : List Contact) (seen : List String) :
    mapOncallAux cfg acc seen ldaps =
      acc ++ dedupKeys seen (oncallCandidates cfg ldaps) := by
  induction ldaps generalizing acc seen with
  | nil => simp [mapOncallAux, oncallCandidates, dedupKeys]
  | cons l rest ih =>
      by_cases h : normalizeLdap l = ""
      · simp [mapOncallAux, oncallCandidates, h, ih]
      · simp only [mapOncallAux, oncallCandidates, h, if_neg, List.flatMap_cons,
          if_false, addMatched_eq, ih]
        rw [dedupKeys_append]
        simp [oncallCandidates, List.append_assoc]
        rfl

theorem mem_dedupKeys_mem {c : Contact} {seen : List String}
    {L : List Contact} (h : c ∈ dedupKeys seen L) :
    c ∈ L ∧ c.key ∉ seen := by
  induction L generalizing seen with
  | nil => simp [dedupKeys] at h
  | cons a L ih =>
      by_cases ha : a.key ∈ seen
      · rw [dedupKeys, if_pos ha] at h
        obtain ⟨hc, hk⟩ := ih h
        exact ⟨List.mem_cons_of_mem _ hc, hk⟩
      · rw [dedupKeys, if_neg ha] at h
        rcases List.mem_cons.mp h with rfl | h
        · exact ⟨List.mem_cons_self _ _, ha⟩
        · obtain ⟨hc, hk⟩ := ih h
          refine ⟨List.mem_cons_of_mem _ hc, fun hs => hk ?_⟩
          simp [hs]

theorem mem_dedupKeys_of_mem {c : Contact} {seen : List String}
    {L : List Contact}
    (hsame : ∀ a ∈ L, ∀ b ∈ L, a.key = b.key → a = b)
    (hc : c ∈ L) (hk : c.key ∉ seen) : c ∈ dedupKeys seen L := by
  induction L generalizing seen with
  | nil => simp at hc
  | cons a L ih =>
      rcases List.mem_cons.mp hc with rfl | hc
      · rw [dedupKeys, if_neg hk]
        exact List.mem_cons_self _ _
      · by_cases ha : a.key ∈ seen
        · rw [dedupKeys, if_pos ha]
          exact ih (fun x hx y hy => hsame x (List.mem_cons_of_mem _ hx)
            y (List.mem_cons_of_mem _ hy)) hc hk
        · rw [dedupKeys, if_neg ha]
          by_cases hkey : c.key = a.key
          · have : c = a := hsame c (List.mem_cons_of_mem _ hc) a
              (List.mem_cons_self _ _) hkey
            subst this
            exact List.mem_cons_self _ _
          · refine List.mem_cons_of_mem _ (ih (fun x hx y hy =>
              hsame x (List.mem_cons_of_mem _ hx) y (List.mem_cons_of_mem _ hy))
              hc ?_)
            simp [hkey, hk]

theorem dedupKeys_keys_nodup (L : List Contact) (seen : List String) :
    ((dedupKeys seen L).map (fun c => c.key)).Nodup
    ∧ ∀ k ∈ (dedupKeys seen L).map (fun c => c.key), k ∉ seen := by
  induction L generalizing seen with
  | nil => simp [dedupKeys]
  | cons a L ih =>
      by_cases ha : a.key ∈ seen
      · rw [dedupKeys, if_pos ha]
        exact ih seen
      · rw [dedupKeys, if_neg ha]
        obtain ⟨hnd, hout⟩ := ih (seen ++ [a.key])
        refine ⟨?_, ?_⟩
        · simp only [List.map_cons, List.nodup_cons]
          refine ⟨fun hmem => ?_, hnd⟩
          have := hout _ hmem
          simp at this
        · intro k hk
          simp only [List.map_cons, List.mem_cons] at hk
          rcases hk with rfl | hk
          · exact ha
          · intro hs
            exact hout _ hk (by simp [hs])

/-- Injectivity of contact keys over a directory whose key list has no
duplicates. -/
theorem key_inj_of_nodup {l : List Contact}
    (h : (l.map (fun c => c.key)).Nodup) :
    ∀ a ∈ l, ∀ b ∈ l, a.key = b.key → a = b := by
  induction l with
  | nil => intro a ha; simp at ha
  | cons c rest ih =>
      simp only [List.map_cons, List.nodup_cons] at h
      obtain ⟨hout, hnd⟩ := h
      intro a ha b hb hk
      rcases List.mem_cons.mp ha with ha1 | ha2
      · rcases List.mem_cons.mp hb with hb1 | hb2
        · rw [ha1, hb1]
        · exfalso
          apply hout
          have hbm : b.key ∈ List.map (fun c => c.key) rest :=
            List.mem_map_of_mem (fun c => c.key) hb2
          rw [← hk, ha1] at hbm
          exact hbm
      · rcases List.mem_cons.mp hb with hb1 | hb2
        · exfalso
          apply hout
          have ham : a.key ∈ List.map (fun c => c.key) rest :=
            List.mem_map_of_mem (fun c => c.key) ha2
          rw [hk, hb1] at ham
          exact ham
        · exact ih hnd a ha2 b hb2 hk

/-- C10: with distinct contact keys, the on-call mapping is exactly the
first-match key-deduplication of the per-identifier match streams: it
contains a contact iff some incoming identifier, stripped and lowercased, is
non-blank and equals one of the contact's tokens (lowercased handle, handle
part before `@`, or on-call identifier); it never lists a key twice; and it
equals the spec-side dedup of the candidate stream, which fixes the order of
first match.  Blank and unmatched identifiers contribute nothing. -/
theorem c10_map_oncall_characterization (cfg : BotConfig)
    (ldaps : List String)
    (hkeys : (cfg.contacts.map (fun c => c.key)).Nodup) :
    (∀ c, c ∈ map_oncall_ldaps_to_contacts cfg ldaps ↔
      (c ∈ cfg.contacts ∧ ∃ l ∈ ldaps, normalizeLdap l ≠ ""
        ∧ normalizeLdap l ∈ contactTokens c))
    ∧ ((map_oncall_ldaps_to_contacts cfg ldaps).map (fun c => c.key)).Nodup
    ∧ map_oncall_ldaps_to_contacts cfg ldaps
        = dedupKeys [] (oncallCandidates cfg ldaps) := by
  have heq : map_oncall_ldaps_to_contacts cfg ldaps
      = dedupKeys [] (oncallCandidates cfg ldaps) := by
    unfold map_oncall_ldaps_to_contacts
    simpa using mapOncallAux_eq cfg ldaps [] []
  have hcand : ∀ c, c ∈ oncallCandidates cfg ldaps ↔
      (c ∈ cfg.contacts ∧ ∃ l ∈ ldaps, normalizeLdap l ≠ ""
        ∧ normalizeLdap l ∈ contactTokens c) := by
    intro c
    unfold oncallCandidates matchedContacts
    simp only [List.mem_flatMap]
    constructor
    · rintro ⟨l, hl, hc⟩
      by_cases h : normalizeLdap l = ""
      · simp [h] at hc
      · rw [if_neg h] at hc
        obtain ⟨hmem, htok⟩ := List.mem_filter.mp hc
        exact ⟨hmem, l, hl, h, by simpa using htok⟩
    · rintro ⟨hmem, l, hl, h, htok⟩
      refine ⟨l, hl, ?_⟩
      rw [if_neg h]
      exact List.mem_filter.mpr ⟨hmem, by simpa using htok⟩
  have hsame : ∀ a ∈ oncallCandidates cfg ldaps,
      ∀ b ∈ oncallCandidates cfg ldaps, a.key = b.key → a = b := by
    intro a ha b hb
    exact key_inj_of_nodup hkeys a ((hcand a).mp ha).1 b ((hcand b).mp hb).1
  refine ⟨?_, ?_, heq⟩
  · intro c
    rw [heq]
    constructor
    · intro h
      exact (hcand c).mp (mem_dedupKeys_mem h).1
    · intro h
      exact mem_dedupKeys_of_mem hsame ((hcand c).mpr h) (by simp)
  · rw [heq]
    exact (dedupKeys_keys_nodup _ _).1

/-- Witness for C10: mapping `["alice.ldap", "alice@example.com",
"Unknown User (123)"]` over the test directory yields exactly Alice. -/
theorem c10_map_oncall_characterization_witness :
    ((cfgEx.contacts.map (fun c => c.key)).Nodup)
    ∧ (aliceC ∈
        map_oncall_ldaps_to_contacts cfgEx
          ["alice.ldap", "alice@example.com", "Unknown User (123)"] ↔
      (aliceC ∈ cfgEx.contacts
        ∧ ∃ l ∈ ["alice.ldap", "alice@example.com", "Unknown User (123)"],
            normalizeLdap l ≠ "" ∧ normalizeLdap l ∈ contactTokens aliceC)) :=
  ⟨by decide,
   (c10_map_oncall_characterization cfgEx
     ["alice.ldap", "alice@example.com", "Unknown User (123)"]
     (by decide)).1 aliceC⟩

/-! ## Claim C1: acknowledged becomes true iff all contacts confirmed or a
stop command arrived -/

/-- C1: from an unacknowledged session state in which not every contact has
confirmed, one `handle_event` step sets `acknowledged` exactly when
afterwards every contact's handle is in `acknowledged_ldaps` or a stop
command was received from a non-bot author; and a received stop command
marks every contact's handle acknowledged and flips `acknowledged` in that
same step. -/
theorem c1_ack_iff_full_or_stop (cfg : BotConfig) (s : ReminderSession)
    (e : ChatEvent) (hack : s.acknowledged = false)
    (hfull : allAcked s.contacts s.acknowledged_ldaps = false) :
    ((handle_event cfg s e).1.acknowledged = true ↔
      (allAcked s.contacts (handle_event cfg s e).1.acknowledged_ldaps = true
        ∨ stopReceived s e = true))
    ∧ (stopReceived s e = true →
        (handle_event cfg s e).1.acknowledged = true
        ∧ ∀ c ∈ s.contacts,
            c.ldap ∈ (handle_event cfg s e).1.acknowledged_ldaps) := by
  by_cases hcons : eventConsidered s e = true
  · by_cases hstop : hasWord "stop" (lowerStr e.text) = true
    · rw [handle_event_stop cfg s e hack hcons hstop]
      have hsr : stopReceived s e = true := by
        unfold stopReceived
        simp [hcons, hstop]
      have hmem : ∀ c ∈ s.contacts,
          c.ldap ∈ unionSet s.acknowledged_ldaps
            (s.contacts.map (fun c => c.ldap)) := by
        intro c hc
        exact mem_unionSet.mpr (Or.inr (List.mem_map_of_mem _ hc))
      exact ⟨by simp [hsr], fun _ => ⟨rfl, hmem⟩⟩
    · have hstopF : hasWord "stop" (lowerStr e.text) = false := by simpa using hstop
      have hsr : stopReceived s e = false := by
        unfold stopReceived
        simp [hstopF]
      by_cases hgate : (hasWord "take" (lowerStr e.text)
          && (userIsContact s e || isBotMentioned e (lowerStr e.text))) = true
      · rw [handle_event_take cfg s e hack hcons hstopF hgate]
        refine ⟨?_, fun hc => absurd hc (by simp [hsr])⟩
        simp only [hsr]
        rw [hack]
        by_cases hA : allAcked s.contacts (takeInsert s e) = true
        · simp [hA]
        · simp [hA]
      · rw [handle_event_no_match cfg s e hack hstopF (by simpa using hgate)]
        simp [hack, hfull, hsr]
  · have hconsF : eventConsidered s e = false := by simpa using hcons
    rw [handle_event_not_considered cfg s e hconsF]
    have hsr : stopReceived s e = false := by
      unfold stopReceived
      simp [hconsF]
    simp [hack, hfull, hsr]

/-- Witness for C1: a stop command from an unrelated user in the fresh
two-contact session acknowledges the session and marks both contacts. -/
theorem c1_ack_iff_full_or_stop_witness :
    sessEx.acknowledged = false
    ∧ allAcked sessEx.contacts sessEx.acknowledged_ldaps = false
    ∧ ((handle_event cfgEx sessEx evStop).1.acknowledged = true ↔
        (allAcked sessEx.contacts
            (handle_event cfgEx sessEx evStop).1.acknowledged_ldaps = true
          ∨ stopReceived sessEx evStop = true)) :=
  ⟨rfl, by decide,
   (c1_ack_iff_full_or_stop cfgEx sessEx evStop rfl (by decide)).1⟩

/-! ## Claim C2: event deduplication -/

theorem nodup_takeInsert {s : ReminderSession} {e : ChatEvent}
    (h : s.acknowledged_ldaps.Nodup) : (takeInsert s e).Nodup := by
  unfold takeInsert
  cases (eventUser e).ldap with
  | none => exact h
  | some l =>
      by_cases hl : l ∈ s.contacts.map (fun c => c.ldap)
      · simp only [hl, if_true]
        exact nodup_insertSet h
      · simp only [hl, if_false]
        exact h

/-- `handle_event` never introduces a duplicate handle into
`acknowledged_ldaps`. -/
theorem handle_event_ldaps_nodup (cfg : BotConfig) (s : ReminderSession)
    (e : ChatEvent) (h : s.acknowledged_ldaps.Nodup) :
    (handle_event cfg s e).1.acknowledged_ldaps.Nodup := by
  by_cases h1 : s.acknowledged = true
  · rw [handle_event_acked cfg s e h1]
    exact h
  · have hack : s.acknowledged = false := by simpa using h1
    by_cases hcons : eventConsidered s e = true
    · by_cases hstop : hasWord "stop" (lowerStr e.text) = true
      · rw [handle_event_stop cfg s e hack hcons hstop]
        exact nodup_unionSet h
      · have hstopF : hasWord "stop" (lowerStr e.text) = false := by simpa using hstop
        by_cases hgate : (hasWord "take" (lowerStr e.text)
            && (userIsContact s e || isBotMentioned e (lowerStr e.text))) = true
        · rw [handle_event_take cfg s e hack hcons hstopF hgate]
          exact nodup_takeInsert h
        · rw [handle_event_no_match cfg s e hack hstopF (by simpa using hgate)]
          exact h
    · rw [handle_event_not_considered cfg s e (by simpa using hcons)]
      exact h

/-- Counterexample to C2 as stated: the same event id delivered once via the
push webhook and once via a poll batch reaches `handle_event` twice and
produces a confirmation reply both times, because the push path never
consults or fills `processed_post_ids`.  Alice's take in the two-contact
session leaves it unacknowledged, so the poll re-delivery is not absorbed by
the acknowledged guard. -/
theorem c2_counterexample_push_then_poll :
    evTake.id = some "evt-7"
    ∧ (pushEvent cfgEx sessEx evTake).2 = [ackReply cfgEx sessEx]
    ∧ (pushEvent cfgEx sessEx evTake).1.acknowledged = false
    ∧ (pollEvents cfgEx (pushEvent cfgEx sessEx evTake).1 [evTake]).2
        = [ackReply cfgEx sessEx] := by
  refine ⟨rfl, ?_, ?_, ?_⟩ <;> decide

/-- C2 amended: deduplication holds within the poll path — once a poll
batch has processed an event with a truthy id, re-delivering the same event
through a later poll batch is a complete no-op — and `acknowledged_ldaps`
never acquires duplicates in any case; but a push-delivered event bypasses
the dedup set, so the same id arriving via push plus poll can reach
`handle_event` twice and send one confirmation reply per delivery while the
session is still unacknowledged. -/
theorem c2_amended_poll_dedup (cfg : BotConfig) (s : ReminderSession)
    (e : ChatEvent) (hid : truthyStr e.id = true) :
    pollEvents cfg (pollEvents cfg s [e]).1 [e] = ((pollEvents cfg s [e]).1, [])
    ∧ (s.acknowledged_ldaps.Nodup →
        (pollEvents cfg s [e]).1.acknowledged_ldaps.Nodup) := by
  obtain ⟨i, hii, hine⟩ : ∃ i, e.id = some i ∧ i ≠ "" := by
    unfold truthyStr at hid
    cases hca : e.id with
    | none => rw [hca] at hid; simp at hid
    | some j =>
        rw [hca] at hid
        exact ⟨j, rfl, by simpa using hid⟩
  have htru : truthyStr (some i) = true := decide_eq_true hine
  have hskip : ∀ t : ReminderSession, i ∈ t.processed_post_ids →
      pollEvents cfg t [e] = (t, []) := by
    intro t ht
    simp [pollEvents, hii, htru, ht]
  by_cases hm : i ∈ s.processed_post_ids
  · rw [hskip s hm]
    exact ⟨hskip s hm, fun h => h⟩
  · have h1 : (pollEvents cfg s [e]).1 =
        (handle_event cfg
          { s with processed_post_ids := insertSet i s.processed_post_ids }
          e).1 := by
      simp only [pollEvents, hii, htru, hm, Bool.and_eq_true, decide_eq_true_eq,
        and_false, if_false, hine, ite_true, if_neg, not_false_eq_true]
      split <;> simp_all
    have hpm : i ∈ (pollEvents cfg s [e]).1.processed_post_ids := by
      rw [h1]
      rw [(handle_event_frame cfg
        { s with processed_post_ids := insertSet i s.processed_post_ids } e).2.2]
      exact mem_insertSet.mpr (Or.inr rfl)
    constructor
    · exact hskip _ hpm
    · intro h
      rw [h1]
      exact handle_event_ldaps_nodup cfg _ e h

/-- Witness for the amended C2: re-polling Alice's take event after its
first poll delivery is a no-op and the acknowledged set stays
duplicate-free. -/
theorem c2_amended_poll_dedup_witness :
    truthyStr evTake.id = true
    ∧ pollEvents cfgEx (pollEvents cfgEx sessEx [evTake]).1 [evTake]
        = ((pollEvents cfgEx sessEx [evTake]).1, []) :=
  ⟨by decide, (c2_amended_poll_dedup cfgEx sessEx evTake (by decide)).1⟩

/-! ## Claim C3: the thread-scope check -/

/-- A stop command in a top-level event that carries no `root_id` at all:
its root id is neither the session's thread id nor its own id. -/
def evNoRoot : ChatEvent :=
  { type := "message", id := some "evt-1", root_id := none,
    user := some { ldap := some "random.user" }, text := "stop" }

/-- An out-of-thread message: its root id is truthy but matches neither the
session thread nor its own id. -/
def evOut : ChatEvent :=
  { type := "message", id := some "evt-2", root_id := some "other-thread",
    user := some { ldap := some "random.user" }, text := "stop" }

/-- Counterexample to C3 as stated: an event with no root id — unequal both
to the session's `thread_id` and to the event's own id — is nevertheless
accepted into the matching: `handle_event` processes its stop command and
acknowledges the session, so the claimed "every other event is ignored" is
false. -/
theorem c3_counterexample_rootless_accepted :
    evNoRoot.root_id ≠ some sessEx.thread_id
    ∧ evNoRoot.root_id ≠ evNoRoot.id
    ∧ handle_event cfgEx sessEx evNoRoot ≠ (sessEx, [])
    ∧ (handle_event cfgEx sessEx evNoRoot).1.acknowledged = true := by
  refine ⟨by decide, by decide, by decide, by decide⟩

/-- C3 amended: a message event passes the thread-scope check exactly when
its root id equals the session's `thread_id`, or equals its own id, or is
missing/empty (a top-level, non-threaded post); every event rejected by the
check is ignored — `handle_event` leaves the session unchanged and sends
nothing. -/
theorem c3_thread_scope_characterization (cfg : BotConfig)
    (s : ReminderSession) (e : ChatEvent) :
    (threadScopeReject s e = false ↔
      (e.root_id = some s.thread_id ∨ e.root_id = e.id
        ∨ truthyStr e.root_id = false))
    ∧ (threadScopeReject s e = true → handle_event cfg s e = (s, [])) := by
  constructor
  · unfold threadScopeReject
    cases hroot : e.root_id with
    | none => simp [truthyStr]
    | some r =>
        cases hid : e.id with
        | none =>
            by_cases hr : r = "" <;> by_cases ht : r = s.thread_id <;>
              simp_all [truthyStr, bne]
        | some j =>
            by_cases hr : r = "" <;> by_cases ht : r = s.thread_id <;>
              by_cases hj : r = j <;> simp_all [truthyStr, bne]
  · intro hrej
    unfold handle_event
    by_cases h1 : s.acknowledged
    · simp [h1]
    · by_cases h2 : e.type == "message"
      · simp [h1, h2, hrej, bne]
      · simp [h1, h2, bne]

/-- Witness for the amended C3: an out-of-thread stop command is rejected by
the scope check and `handle_event` ignores it completely. -/
theorem c3_thread_scope_characterization_witness :
    threadScopeReject sessEx evOut = true
    ∧ handle_event cfgEx sessEx evOut = (sessEx, []) :=
  ⟨by decide,
   (c3_thread_scope_characterization cfgEx sessEx evOut).2 (by decide)⟩

/-! ## Claim C4: unauthorized take commands are no-ops -/

/-- A message containing both a take and a stop keyword, from a non-contact
who does not mention the bot. -/
def evTakeStop : ChatEvent :=
  { type := "message", id := some "evt-3", root_id := some "msg-1",
    user := some { ldap := some "random.user" },
    text := "i will take it, stop pinging" }

/-- An in-thread plain take command from a non-contact without any bot
mention. -/
def evPlainTake : ChatEvent :=
  { type := "message", id := some "evt-4", root_id := some "msg-1",
    user := some { ldap := some "random.user" }, text := "i take it" }

/-- Counterexample to C4 as stated: an in-thread take command from a
non-contact without any bot mention is not always a no-op — when the same
text also contains the whole word `stop`, the stop branch fires first,
replies, and acknowledges the session. -/
theorem c4_counterexample_take_with_stop :
    hasWord "take" (lowerStr evTakeStop.text) = true
    ∧ userIsContact sessEx evTakeStop = false
    ∧ isBotMentioned evTakeStop (lowerStr evTakeStop.text) = false
    ∧ threadScopeReject sessEx evTakeStop = false
    ∧ handle_event cfgEx sessEx evTakeStop ≠ (sessEx, [])
    ∧ (handle_event cfgEx sessEx evTakeStop).1.acknowledged = true := by
  refine ⟨by decide, by decide, by decide, by decide, by decide, by decide⟩

/-- C4 amended: a take command whose author is not a session contact, which
does not mention the bot, and whose text does not also contain a whole-word
stop command, is a complete no-op: no reply is sent and the session state —
in particular `acknowledged_ldaps` and `acknowledged` — is unchanged. -/
theorem c4_unauthorized_take_noop (cfg : BotConfig) (s : ReminderSession)
    (e : ChatEvent) (htake : hasWord "take" (lowerStr e.text) = true)
    (hstop : hasWord "stop" (lowerStr e.text) = false)
    (hcontact : userIsContact s e = false)
    (hment : isBotMentioned e (lowerStr e.text) = false) :
    handle_event cfg s e = (s, []) := by
  by_cases hack : s.acknowledged = true
  · exact handle_event_acked cfg s e hack
  · exact handle_event_no_match cfg s e (by simpa using hack) hstop
      (by simp [hcontact, hment])

/-- Witness for the amended C4: a plain in-thread take from a non-contact
without a mention leaves the fresh session untouched. -/
theorem c4_unauthorized_take_noop_witness :
    hasWord "take" (lowerStr evPlainTake.text) = true
    ∧ handle_event cfgEx sessEx evPlainTake = (sessEx, []) :=
  ⟨by decide,
   c4_unauthorized_take_noop cfgEx sessEx evPlainTake (by decide) (by decide)
     (by decide) (by decide)⟩

/-! ## Claim C5: vouched take commands reply without marking contacts -/

/-- A message with both take and stop keywords that mentions the bot, from a
non-contact. -/
def evTakeStopMent : ChatEvent :=
  { type := "message", id := some "evt-5", root_id := some "msg-1",
    user := some { ldap := some "random.user" },
    text := "@scdp-platform-bot take stop" }

/-- An in-thread take command mentioning the bot, from a non-contact. -/
def evVouch : ChatEvent :=
  { type := "message", id := some "evt-6", root_id := some "msg-1",
    user := some { ldap := some "random.user" },
    text := "@scdp-platform-bot take" }

/-- Counterexample to C5 as stated: a bot-mentioning take command from a
non-contact does not always leave `acknowledged_ldaps` unchanged — when the
text also contains the whole word `stop`, the stop branch marks every
contact's handle acknowledged. -/
theorem c5_counterexample_take_with_stop :
    hasWord "take" (lowerStr evTakeStopMent.text) = true
    ∧ userIsContact sessEx evTakeStopMent = false
    ∧ isBotMentioned evTakeStopMent (lowerStr evTakeStopMent.text) = true
    ∧ (handle_event cfgEx sessEx evTakeStopMent).1.acknowledged_ldaps
        ≠ sessEx.acknowledged_ldaps
    ∧ "alice.ldap" ∈
        (handle_event cfgEx sessEx evTakeStopMent).1.acknowledged_ldaps := by
  refine ⟨by decide, by decide, by decide, by decide, by decide⟩

/-- C5 amended: for a considered in-thread take command whose text does not
also contain a stop command, if the author is not a session contact but the
bot is mentioned, `handle_event` sends exactly the one in-thread
confirmation reply and adds no handle to `acknowledged_ldaps`; and in every
take case, any handle present afterwards was already acknowledged or is the
author's own handle with the author a session contact. -/
theorem c5_vouched_take_reply_only (cfg : BotConfig) (s : ReminderSession)
    (e : ChatEvent) (hack : s.acknowledged = false)
    (hcons : eventConsidered s e = true)
    (htake : hasWord "take" (lowerStr e.text) = true)
    (hstop : hasWord "stop" (lowerStr e.text) = false) :
    (userIsContact s e = false → isBotMentioned e (lowerStr e.text) = true →
      ((handle_event cfg s e).2 = [ackReply cfg s]
        ∧ (handle_event cfg s e).1.acknowledged_ldaps = s.acknowledged_ldaps))
    ∧ ∀ h, h ∈ (handle_event cfg s e).1.acknowledged_ldaps →
        (h ∈ s.acknowledged_ldaps
          ∨ ((eventUser e).ldap = some h ∧ userIsContact s e = true)) := by
  constructor
  · intro hnc hm
    rw [handle_event_take cfg s e hack hcons hstop (by simp [htake, hm])]
    refine ⟨rfl, ?_⟩
    show takeInsert s e = s.acknowledged_ldaps
    unfold takeInsert
    unfold userIsContact at hnc
    cases hul : (eventUser e).ldap with
    | none => rfl
    | some l =>
        rw [hul] at hnc
        dsimp only
        simp only [decide_eq_false_iff_not] at hnc
        rw [if_neg hnc]
  · intro h hmem
    by_cases hgate : (hasWord "take" (lowerStr e.text)
        && (userIsContact s e || isBotMentioned e (lowerStr e.text))) = true
    · rw [handle_event_take cfg s e hack hcons hstop hgate] at hmem
      have hmem2 : h ∈ takeInsert s e := hmem
      unfold takeInsert at hmem2
      cases hul : (eventUser e).ldap with
      | none =>
          rw [hul] at hmem2
          exact Or.inl hmem2
      | some l =>
          rw [hul] at hmem2
          dsimp only at hmem2
          by_cases hl : l ∈ s.contacts.map (fun c => c.ldap)
          · rw [if_pos hl] at hmem2
            rcases mem_insertSet.mp hmem2 with hmm | hme
            · exact Or.inl hmm
            · refine Or.inr ⟨by rw [hme], ?_⟩
              unfold userIsContact
              rw [hul]
              simpa using hl
          · rw [if_neg hl] at hmem2
            exact Or.inl hmem2
    · rw [handle_event_no_match cfg s e hack hstop (by simpa using hgate)]
        at hmem
      exact Or.inl hmem

/-- Witness for the amended C5: the vouching take from a non-contact in the
fresh session produces exactly the confirmation reply and marks nobody. -/
theorem c5_vouched_take_reply_only_witness :
    (handle_event cfgEx sessEx evVouch).2 = [ackReply cfgEx sessEx]
    ∧ (handle_event cfgEx sessEx evVouch).1.acknowledged_ldaps
        = sessEx.acknowledged_ldaps :=
  (c5_vouched_take_reply_only cfgEx sessEx evVouch rfl (by decide) (by decide)
    (by decide)).1 (by decide) (by decide)

end Duty
